import Mathlib

/-!
Shallow embedding of the `crates_llms_txt` Rust library (rs-lib), covering
the document-index flattening logic (`CrateDocs::process_docs` in
`src/rs-lib/src/lib.rs`), the dual-schema compatibility shim
(`CommonCrates` over `rustdoc_types::Crate` and the internal
`temp_trait::Crate`, in `src/rs-lib/src/temp_trait.rs`) and the
fetch/decompress/parse pipeline (`OnlineDocs` in
`src/rs-lib/src/fetch_docs.rs`).

Modelling conventions:
- Rust `HashMap<K, V>` values are embedded as association lists
  `List (K × V)`; the list order stands for the iteration order of the map.
- Machine integers (`u32`, `usize`) are embedded as `Nat`; none of the
  verified code performs arithmetic on them.
- Byte buffers (`&[u8]`, `Vec<u8>`) are embedded as `List Nat`.
- Fallible Rust code returning `Result` is embedded with `Except`;
  a Rust panic (from `unwrap`) is embedded as the `none` case of an
  `Option` result, distinct from every `Err`.
- External effects (the HTTP client, zstd decoding, serde deserialization
  of the generic payload types) are taken as explicit function arguments,
  so every pipeline function is a pure function of its inputs.
-/

namespace CratesLlmsTxt

/-- Item identifier: `rustdoc_types::Id` wraps a `u32`. -/
abbrev Id := Nat

/-- Raw byte buffers (`Vec<u8>` / `&[u8]`). -/
abbrev Bytes := List Nat

/-- Visibility of an item, mirroring `rustdoc_types::Visibility`. -/
inductive Visibility where
  | Public : Visibility
  | Default : Visibility
  | Crate : Visibility
  | Restricted (parent : Id) (path : String) : Visibility
  deriving DecidableEq, Repr

/-- A filesystem path (`std::path::PathBuf`). The only operation the
library performs on it is `to_str()`, which yields `None` when the path
is not valid UTF-8, so the path is embedded by that observation. -/
structure PathBuf where
  toStr : Option String
  deriving DecidableEq, Repr

/-- Source span of an item, mirroring `rustdoc_types::Span`
(filename plus begin/end line-column pairs). -/
structure Span where
  filename : PathBuf
  beginPos : Nat × Nat
  endPos : Nat × Nat
  deriving DecidableEq, Repr

/-- Deprecation notice, mirroring `rustdoc_types::Deprecation`. -/
structure Deprecation where
  since : Option String
  note : Option String
  deriving DecidableEq, Repr

/-- Type-specific payload of an item (`rustdoc_types::ItemEnum`). The
library never inspects this field, so its many constructors are
abstracted into an opaque tag. -/
inductive ItemEnum where
  | moduleItem (isCrate : Bool) : ItemEnum
  | other (tag : Nat) : ItemEnum
  deriving DecidableEq, Repr

/-- Entry of `Crate::paths`, mirroring `rustdoc_types::ItemSummary`
(never read by the verified code). -/
structure ItemSummary where
  crate_id : Nat
  path : List String
  kind : String
  deriving DecidableEq, Repr

/-- Entry of `Crate::external_crates`, mirroring
`rustdoc_types::ExternalCrate` (never read by the verified code). -/
structure ExternalCrate where
  name : String
  html_root_url : Option String
  deriving DecidableEq, Repr

/-- Build target description, mirroring `rustdoc_types::Target`
(never read by the verified code). -/
structure Target where
  triple : String
  target_features : List String
  deriving DecidableEq, Repr

/-- Internal item representation, `temp_trait::Item`
(`src/rs-lib/src/temp_trait.rs`). Its `attrs` are plain strings. -/
structure Item where
  id : Id
  crate_id : Nat
  name : Option String
  span : Option Span
  visibility : Visibility
  docs : Option String
  links : List (String × Id)
  attrs : List String
  deprecation : Option Deprecation
  inner : ItemEnum
  deriving DecidableEq, Repr

/-- An attribute of a `rustdoc_types::Item`. The library only ever
serializes attributes to JSON strings (and `process_docs` never reads
them), so the attribute is embedded as its serialized form. -/
abbrev RustAttr := String

/-- Embedding of `serde_json::to_string(attr).ok()` used by the
`CommonCrates` impl for `rustdoc_types::Crate`. Serialization of an
attribute value never fails, and no verified claim depends on the
produced string, so it is embedded as the identity. -/
def attrToJsonString (a : RustAttr) : Option String := some a

/-- Item of the standard schema, `rustdoc_types::Item`. It differs from
the internal `Item` in the representation of `attrs`. -/
structure RustItem where
  id : Id
  crate_id : Nat
  name : Option String
  span : Option Span
  visibility : Visibility
  docs : Option String
  links : List (String × Id)
  attrs : List RustAttr
  deprecation : Option Deprecation
  inner : ItemEnum
  deriving DecidableEq, Repr

/-- Internal crate representation, `temp_trait::Crate`. -/
structure Crate where
  root : Id
  crate_version : Option String
  includes_private : Bool
  index : List (Id × Item)
  paths : List (Id × ItemSummary)
  external_crates : List (Nat × ExternalCrate)
  target : Target
  format_version : Nat
  deriving DecidableEq, Repr

/-- Standard schema crate, `rustdoc_types::Crate`. -/
structure RustCrate where
  root : Id
  crate_version : Option String
  includes_private : Bool
  index : List (Id × RustItem)
  paths : List (Id × ItemSummary)
  external_crates : List (Nat × ExternalCrate)
  target : Target
  format_version : Nat
  deriving DecidableEq, Repr

/-- The `CommonCrates` trait of `src/rs-lib/src/temp_trait.rs`: the
unified interface `process_docs` consumes. -/
class CommonCrates (T : Type) where
  root_id : T → Id
  crate_version : T → String
  index : T → List (Id × Item)

/-- Field-by-field conversion of a `rustdoc_types::Item` into the
internal `Item`, as performed inside `impl CommonCrates for
rustdoc_types::Crate { fn index }`. -/
def convertItem (item : RustItem) : Item :=
  { id := item.id
    crate_id := item.crate_id
    name := item.name
    span := item.span
    visibility := item.visibility
    docs := item.docs
    links := item.links
    attrs := item.attrs.filterMap attrToJsonString
    deprecation := item.deprecation
    inner := item.inner }

/-- The impl of `CommonCrates` for `rustdoc_types::Crate`: the index is
rebuilt entry by entry through `convertItem`. -/
instance : CommonCrates RustCrate where
  root_id c := c.root
  crate_version c := c.crate_version.getD "latest"
  index c := c.index.map (fun p => (p.1, convertItem p.2))

/-- The impl of `CommonCrates` for the internal `Crate`: direct access
(the Rust code clones the map). -/
instance : CommonCrates Crate where
  root_id c := c.root
  crate_version c := c.crate_version.getD "latest"
  index c := c.index

/-- Summary entry for one documentation item (`SessionItem` in
`src/rs-lib/src/lib.rs`). -/
structure SessionItem where
  title : String
  description : String
  link : String
  deriving DecidableEq, Repr

/-- Full-content entry for one documentation item (`FullSessionItem`). -/
structure FullSessionItem where
  content : String
  link : String
  deriving DecidableEq, Repr

/-- The result structure (`CrateDocs`). -/
structure CrateDocs where
  lib_name : String
  version : String
  sessions : List SessionItem
  full_sessions : List FullSessionItem
  deriving DecidableEq, Repr

/-- Base URL for docs.rs crate documentation API endpoints
(`DOCS_BASE_URL` in `src/rs-lib/src/lib.rs`). -/
def DOCS_BASE_URL : String := "https://docs.rs/crate"

/-- The item loop of `CrateDocs::process_docs` (lines 186-214 of
`src/rs-lib/src/lib.rs`), processing the index entries in iteration
order. An item without docs is skipped; a documented item that is not
public is skipped; otherwise `item.span.unwrap()` and
`filename.to_str().unwrap()` are evaluated (a `none` at either point is
the embedded panic, collapsing the whole call to `none`) and one
`SessionItem` and one `FullSessionItem` are appended. -/
def processItems (base_url : String) :
    List (Id × Item) → Option (List SessionItem × List FullSessionItem)
  | [] => some ([], [])
  | p :: rest =>
    match p.2.docs with
    | none => processItems base_url rest
    | some docs_content =>
      if p.2.visibility ≠ Visibility.Public then
        processItems base_url rest
      else
        match p.2.span with
        | none => none
        | some sp =>
          match sp.filename.toStr with
          | none => none
          | some fname =>
            match processItems base_url rest with
            | none => none
            | some (ss, fs) =>
              some
                ({ title := p.2.name.getD fname
                   description := ""
                   link := base_url ++ "/" ++ fname } :: ss,
                 { content := docs_content
                   link := base_url ++ "/" ++ fname } :: fs)

/-- `CrateDocs::process_docs` (`src/rs-lib/src/lib.rs`, lines 169-217).
The Rust function returns `Result<CrateDocs>` but has no `Err` exit;
its only abnormal exit is a panic from `unwrap`, embedded here as
`none`, so `some` is exactly `Ok`. -/
def process_docs {T : Type} [CommonCrates T] (lib_name : String) (docs : T)
    (version : Option String) : Option CrateDocs :=
  let version := version.getD (CommonCrates.crate_version docs)
  let base_url := DOCS_BASE_URL ++ "/" ++ lib_name ++ "/" ++ version ++ "/source"
  match processItems base_url (CommonCrates.index docs) with
  | none => none
  | some (ss, fs) =>
    some
      { lib_name := lib_name
        version := version
        sessions :=
          { title := lib_name
            description := ""
            link := "https://docs.rs/" ++ lib_name ++ "/" ++ version } :: ss
        full_sessions := fs }

/-- The library error enum (`src/rs-lib/src/error.rs`). Wrapped foreign
error values (`reqwest::Error`, `serde_json::Error`, `std::io::Error`,
build errors) are embedded by their message strings. The `Io`
constructor is named `IoErr` here. -/
inductive Error where
  | Network (msg : String) : Error
  | Json (msg : String) : Error
  | IoErr (msg : String) : Error
  | Build (msg : String) : Error
  | Config (msg : String) : Error
  deriving DecidableEq, Repr

/-- An HTTP response as observed by `OnlineDocs::fetch_json`: the body
bytes and the `Content-Encoding` / `Content-Type` header values already
passed through `to_str().ok()` (hence `Option String`). -/
structure HttpResponse where
  body : Bytes
  contentEncoding : Option String
  contentType : Option String
  deriving DecidableEq, Repr

/-- ASCII lowercasing of one character, as done byte-wise by Rust
`eq_ignore_ascii_case`. -/
def asciiLower (c : Char) : Char :=
  if 65 ≤ c.toNat ∧ c.toNat ≤ 90 then Char.ofNat (c.toNat + 32) else c

/-- Rust `str::eq_ignore_ascii_case`: equality after ASCII lowercasing. -/
def eqIgnoreAsciiCase (a b : String) : Bool :=
  decide (a.data.map asciiLower = b.data.map asciiLower)

/-- `OnlineDocs::decompress_if_needed` (`src/rs-lib/src/fetch_docs.rs`,
lines 95-119). The zstd decoder `zstd::decode_all` is an external
function, passed in as `zdec` (its error embedded as a message string).
When a `Content-Encoding` header is present and equals "zstd"
case-insensitively, the decoder result is propagated with failures
wrapped in `Error.IoErr`; any other declared encoding returns the body
unchanged; with no header, a successful decode is returned and a failed
decode falls back to the original bytes. -/
def decompress_if_needed (zdec : Bytes → Except String Bytes)
    (body_bytes : Bytes) (content_encoding : Option String)
    (_content_type : Option String) (_url : String) : Except Error Bytes :=
  match content_encoding with
  | some encoding =>
    if eqIgnoreAsciiCase encoding "zstd" then
      (zdec body_bytes).mapError Error.IoErr
    else
      Except.ok body_bytes
  | none =>
    match zdec body_bytes with
    | Except.ok decompressed => Except.ok decompressed
    | Except.error _ => Except.ok body_bytes

/-- `OnlineDocs::parse_json_with_fallback` (`src/rs-lib/src/fetch_docs.rs`,
lines 140-168). The two serde calls are external: `fromSliceT` embeds
`serde_json::from_slice::<T>` and `fromSliceValue` embeds
`serde_json::from_slice::<serde_json::Value>` (success of the latter is
exactly "the bytes are valid JSON"); serde errors are message strings.
A direct parse is tried first; on failure, validity of the JSON decides
between a `Config` error (structure mismatch) and a `Json` error. -/
def parse_json_with_fallback {T J : Type}
    (fromSliceT : Bytes → Except String T)
    (fromSliceValue : Bytes → Except String J)
    (data : Bytes) : Except Error T :=
  match fromSliceT data with
  | Except.ok result => Except.ok result
  | Except.error e =>
    match fromSliceValue data with
    | Except.ok _ =>
      Except.error (Error.Config
        ("JSON structure incompatible with current rustdoc-types version: "
          ++ e
          ++ ". This may be due to a mismatch between the rustdoc format version used to generate the documentation and the rustdoc-types crate version."))
    | Except.error _ => Except.error (Error.Json e)

/-- `OnlineDocs::fetch_json` (`src/rs-lib/src/fetch_docs.rs`,
lines 48-77): perform the HTTP request (the network is the function
`net`, yielding a response or an `Error` for request failures), then
decompress, then parse with fallback. -/
def fetch_json {T J : Type}
    (fromSliceT : Bytes → Except String T)
    (fromSliceValue : Bytes → Except String J)
    (zdec : Bytes → Except String Bytes)
    (net : String → Except Error HttpResponse)
    (url : String) : Except Error T :=
  match net url with
  | Except.error e => Except.error e
  | Except.ok response =>
    match decompress_if_needed zdec response.body response.contentEncoding
        response.contentType url with
    | Except.error e => Except.error e
    | Except.ok decompressed_bytes =>
      parse_json_with_fallback fromSliceT fromSliceValue decompressed_bytes

/-- `CrateDocs::from_online` (`src/rs-lib/src/lib.rs`, lines 261-285).
`decRust` and `decTemp` embed deserialization into
`rustdoc_types::Crate` and `temp_trait::Crate` respectively. The result
is `Option (Except Error CrateDocs)`: `none` is a panic escaping from
`process_docs`, `some` is a normal return. -/
def from_online {J : Type}
    (decRust : Bytes → Except String RustCrate)
    (decTemp : Bytes → Except String Crate)
    (fromSliceValue : Bytes → Except String J)
    (zdec : Bytes → Except String Bytes)
    (net : String → Except Error HttpResponse)
    (lib_name : String) (version : Option String) :
    Option (Except Error CrateDocs) :=
  let version_str := version.getD "latest"
  let url := DOCS_BASE_URL ++ "/" ++ lib_name ++ "/" ++ version_str ++ "/json"
  match fetch_json decRust fromSliceValue zdec net url with
  | Except.ok result =>
    (process_docs lib_name result
      (some (CommonCrates.crate_version result))).map Except.ok
  | Except.error _ =>
    match fetch_json decTemp fromSliceValue zdec net url with
    | Except.ok result =>
      (process_docs lib_name result
        (some (CommonCrates.crate_version result))).map Except.ok
    | Except.error err => some (Except.error err)

/-- `CrateDocs::from_url` (`src/rs-lib/src/lib.rs`, lines 328-358).
Identical two-attempt structure, but the crate name is extracted from
the root item of the parsed index (`HashMap::get` embedded as
association-list lookup). -/
def from_url {J : Type}
    (decRust : Bytes → Except String RustCrate)
    (decTemp : Bytes → Except String Crate)
    (fromSliceValue : Bytes → Except String J)
    (zdec : Bytes → Except String Bytes)
    (net : String → Except Error HttpResponse)
    (url : String) : Option (Except Error CrateDocs) :=
  match fetch_json decRust fromSliceValue zdec net url with
  | Except.ok docs =>
    match (CommonCrates.index docs).lookup (CommonCrates.root_id docs) with
    | some root_item =>
      (process_docs (root_item.name.getD "unknown") docs
        (some (CommonCrates.crate_version docs))).map Except.ok
    | none =>
      some (Except.error
        (Error.Config "Failed to extract crate name from root item"))
  | Except.error _ =>
    match fetch_json decTemp fromSliceValue zdec net url with
    | Except.ok docs =>
      match (CommonCrates.index docs).lookup (CommonCrates.root_id docs) with
      | some root_item =>
        (process_docs (root_item.name.getD "unknown") docs
          (some (CommonCrates.crate_version docs))).map Except.ok
      | none =>
        some (Except.error
          (Error.Config "Failed to extract crate name from root item"))
    | Except.error err => some (Except.error err)

/-! ### Characterization of the item loop -/

/-- What the loop body of `process_docs` produces for a single index
entry: `none` when the entry is skipped (undocumented, or not public)
or when its span/filename is unavailable, otherwise the appended
session/full-session pair. Used only in statements and proofs. -/
def entryView (base_url : String) (p : Id × Item) :
    Option (SessionItem × FullSessionItem) :=
  match p.2.docs with
  | none => none
  | some docs_content =>
    if p.2.visibility ≠ Visibility.Public then none
    else
      match p.2.span.bind (fun sp => sp.filename.toStr) with
      | none => none
      | some fname =>
        some
          ({ title := p.2.name.getD fname
             description := ""
             link := base_url ++ "/" ++ fname },
           { content := docs_content
             link := base_url ++ "/" ++ fname })

/-- The filter of the loop: the entry is documented and public. -/
def isPublicDocumented (p : Id × Item) : Bool :=
  p.2.docs.isSome && decide (p.2.visibility = Visibility.Public)

/-- Precondition for panic-freedom of the loop: every public documented
entry has a span whose filename is valid UTF-8. -/
abbrev spansOk (items : List (Id × Item)) : Prop :=
  ∀ p ∈ items, p.2.docs.isSome = true →
    p.2.visibility = Visibility.Public →
    (p.2.span.bind (fun sp => sp.filename.toStr)).isSome = true

lemma processItems_isSome_iff (base_url : String)
    (items : List (Id × Item)) :
    (processItems base_url items).isSome = true ↔ spansOk items := by
  induction items with
  | nil => simp [processItems, spansOk]
  | cons p rest ih =>
    unfold spansOk at ih ⊢
    simp only [List.mem_cons, forall_eq_or_imp]
    cases hd : p.2.docs with
    | none => simp [processItems, hd, ih]
    | some d =>
      by_cases hv : p.2.visibility = Visibility.Public
      · cases hs : p.2.span with
        | none => simp [processItems, hd, hv, hs]
        | some sp =>
          cases hf : sp.filename.toStr with
          | none => simp [processItems, hd, hv, hs, hf]
          | some fname =>
            cases hrest : processItems base_url rest with
            | none =>
              have hnot := ih
              rw [hrest] at hnot
              simp only [Option.isSome_none, Bool.false_eq_true,
                false_iff] at hnot
              simp only [processItems, hd, hv, hs, hf, hrest]
              exact iff_of_false (by simp) (fun hab => hnot hab.2)
            | some out =>
              have hsome := ih
              rw [hrest] at hsome
              simp only [Option.isSome_some, true_iff] at hsome
              simp only [processItems, hd, hv, hs, hf, hrest]
              exact iff_of_true (by simp)
                ⟨by simp [hf], fun q hq => hsome q hq⟩
      · simp [processItems, hd, hv, ih]

lemma processItems_eq_of_some (base_url : String)
    (items : List (Id × Item))
    (out : List SessionItem × List FullSessionItem)
    (h : processItems base_url items = some out) :
    out.1 = (items.filterMap (entryView base_url)).map Prod.fst ∧
    out.2 = (items.filterMap (entryView base_url)).map Prod.snd := by
  induction items generalizing out with
  | nil =>
    simp only [processItems, Option.some.injEq] at h
    simp [← h]
  | cons p rest ih =>
    cases hd : p.2.docs with
    | none =>
      simp only [processItems, hd] at h
      have := ih out h
      simp [List.filterMap_cons, entryView, hd, this]
    | some d =>
      by_cases hv : p.2.visibility = Visibility.Public
      · cases hs : p.2.span with
        | none =>
          simp only [processItems, hd, hv, hs] at h
          simp at h
        | some sp =>
          cases hf : sp.filename.toStr with
          | none =>
            simp only [processItems, hd, hv, hs, hf] at h
            simp at h
          | some fname =>
            cases hrest : processItems base_url rest with
            | none =>
              simp only [processItems, hd, hv, hs, hf, hrest] at h
              simp at h
            | some o =>
              obtain ⟨ss, fs⟩ := o
              simp only [processItems, hd, hv, hs, hf, hrest] at h
              simp only [ite_not, if_pos trivial, Option.some.injEq] at h
              obtain ⟨hss, hfs⟩ := ih (ss, fs) hrest
              subst h
              have hev : entryView base_url p =
                  some
                    ({ title := p.2.name.getD fname
                       description := ""
                       link := base_url ++ "/" ++ fname },
                     { content := d
                       link := base_url ++ "/" ++ fname }) := by
                simp [entryView, hd, hv, hs, hf]
              have hss2 : ss =
                  (rest.filterMap (entryView base_url)).map Prod.fst := hss
              have hfs2 : fs =
                  (rest.filterMap (entryView base_url)).map Prod.snd := hfs
              simp [List.filterMap_cons, hev, hss2, hfs2]
      · simp only [processItems, hd] at h
        rw [if_pos (by simp [hv])] at h
        have := ih out h
        simp [List.filterMap_cons, entryView, hd, hv, this]

lemma processItems_filterMap_length (base_url : String)
    (items : List (Id × Item))
    (hok : spansOk items) :
    ((items.filterMap (entryView base_url)).length) =
      (items.filter isPublicDocumented).length := by
  induction items with
  | nil => simp
  | cons p rest ih =>
    have hrest : spansOk rest := fun q hq => hok q (List.mem_cons_of_mem _ hq)
    have hp := hok p (List.mem_cons_self p rest)
    cases hd : p.2.docs with
    | none =>
      simp [List.filterMap_cons, entryView, hd, List.filter_cons,
        isPublicDocumented, ih hrest]
    | some d =>
      by_cases hv : p.2.visibility = Visibility.Public
      · have hspan := hp (by simp [hd]) hv
        cases hf : p.2.span.bind (fun sp => sp.filename.toStr) with
        | none => rw [hf] at hspan; simp at hspan
        | some fname =>
          simp [List.filterMap_cons, entryView, hd, hv, hf,
            List.filter_cons, isPublicDocumented, ih hrest]
      · simp [List.filterMap_cons, entryView, hd, hv, List.filter_cons,
          isPublicDocumented, ih hrest]

lemma entryView_links_eq (base_url : String) (p : Id × Item)
    (q : SessionItem × FullSessionItem)
    (h : entryView base_url p = some q) : q.1.link = q.2.link := by
  unfold entryView at h
  split at h
  · exact Option.noConfusion h
  · split at h
    · exact Option.noConfusion h
    · split at h
      · exact Option.noConfusion h
      · simp only [Option.some.injEq] at h
        subst h
        rfl

lemma crate_root_id (c : Crate) : CommonCrates.root_id c = c.root := rfl

lemma crate_crate_version (c : Crate) :
    CommonCrates.crate_version c = c.crate_version.getD "latest" := rfl

lemma crate_index (c : Crate) : CommonCrates.index c = c.index := rfl

lemma rustCrate_root_id (c : RustCrate) : CommonCrates.root_id c = c.root := rfl

lemma rustCrate_crate_version (c : RustCrate) :
    CommonCrates.crate_version c = c.crate_version.getD "latest" := rfl

lemma rustCrate_index (c : RustCrate) :
    CommonCrates.index c = c.index.map (fun p => (p.1, convertItem p.2)) := rfl

lemma process_docs_some_shape {T : Type} [CommonCrates T] (lib_name : String)
    (docs : T) (version : Option String) (cd : CrateDocs)
    (h : process_docs lib_name docs version = some cd) :
    cd =
      { lib_name := lib_name
        version := version.getD (CommonCrates.crate_version docs)
        sessions :=
          { title := lib_name
            description := ""
            link := "https://docs.rs/" ++ lib_name ++ "/"
              ++ version.getD (CommonCrates.crate_version docs) } ::
          ((CommonCrates.index docs).filterMap
            (entryView (DOCS_BASE_URL ++ "/" ++ lib_name ++ "/"
              ++ version.getD (CommonCrates.crate_version docs)
              ++ "/source"))).map Prod.fst
        full_sessions :=
          ((CommonCrates.index docs).filterMap
            (entryView (DOCS_BASE_URL ++ "/" ++ lib_name ++ "/"
              ++ version.getD (CommonCrates.crate_version docs)
              ++ "/source"))).map Prod.snd } := by
  simp only [process_docs] at h
  cases hpi : processItems
      (DOCS_BASE_URL ++ "/" ++ lib_name ++ "/"
        ++ version.getD (CommonCrates.crate_version docs) ++ "/source")
      (CommonCrates.index docs) with
  | none => rw [hpi] at h; exact absurd h (by simp)
  | some out =>
    obtain ⟨ss, fs⟩ := out
    rw [hpi] at h
    simp only [Option.some.injEq] at h
    obtain ⟨h1, h2⟩ := processItems_eq_of_some _ _ _ hpi
    subst h
    simp only [CrateDocs.mk.injEq, and_true, true_and]
    exact ⟨congrArg _ h1, h2⟩

lemma process_docs_isSome_iff {T : Type} [CommonCrates T] (lib_name : String)
    (docs : T) (version : Option String) :
    (process_docs lib_name docs version).isSome = true ↔
      spansOk (CommonCrates.index docs) := by
  rw [← processItems_isSome_iff (DOCS_BASE_URL ++ "/" ++ lib_name ++ "/"
    ++ version.getD (CommonCrates.crate_version docs) ++ "/source")
    (CommonCrates.index docs)]
  simp only [process_docs]
  cases processItems
      (DOCS_BASE_URL ++ "/" ++ lib_name ++ "/"
        ++ version.getD (CommonCrates.crate_version docs) ++ "/source")
      (CommonCrates.index docs) with
  | none => simp
  | some out => obtain ⟨ss, fs⟩ := out; simp

lemma entryView_some_inversion (base_url : String) (p : Id × Item)
    (q : SessionItem × FullSessionItem)
    (h : entryView base_url p = some q) :
    ∃ d sp fname, p.2.docs = some d ∧
      p.2.visibility = Visibility.Public ∧
      p.2.span = some sp ∧ sp.filename.toStr = some fname ∧
      q.1 = { title := p.2.name.getD fname
              description := ""
              link := base_url ++ "/" ++ fname } ∧
      q.2 = { content := d, link := base_url ++ "/" ++ fname } := by
  unfold entryView at h
  split at h
  · exact Option.noConfusion h
  next d hd =>
    split at h
    · exact Option.noConfusion h
    next hv =>
      split at h
      · exact Option.noConfusion h
      next fname hbind =>
        obtain ⟨sp, hsp, hf⟩ := Option.bind_eq_some.mp hbind
        simp only [Option.some.injEq] at h
        subst h
        exact ⟨d, sp, fname, hd, not_not.mp hv, hsp, hf, rfl, rfl⟩

lemma links_forall₂ (l : List (SessionItem × FullSessionItem))
    (hl : ∀ q ∈ l, q.1.link = q.2.link) :
    List.Forall₂ (fun s f => s.link = f.link)
      (l.map Prod.fst) (l.map Prod.snd) := by
  induction l with
  | nil => simp
  | cons q rest ih =>
    simp only [List.map_cons, List.forall₂_cons]
    exact ⟨hl q (List.mem_cons_self q rest),
      ih (fun r hr => hl r (List.mem_cons_of_mem _ hr))⟩

lemma processItems_congr (base_url : String)
    (xs ys : List (Id × Item))
    (hxy : List.Forall₂ (fun a b =>
      a.2.docs = b.2.docs ∧ a.2.visibility = b.2.visibility ∧
      a.2.span = b.2.span ∧ a.2.name = b.2.name) xs ys) :
    processItems base_url xs = processItems base_url ys := by
  induction hxy with
  | nil => rfl
  | cons hab htail ih =>
    obtain ⟨hdocs, hvis, hspan, hname⟩ := hab
    simp only [processItems, hdocs, hvis, hspan, hname, ih]

/-- Agreement of one standard-schema item with one internal item on the
fields named by the refinement claim: id, name, span, visibility, docs,
links, deprecation and inner. -/
def itemAgrees (a : RustItem) (b : Item) : Prop :=
  a.id = b.id ∧ a.name = b.name ∧ a.span = b.span ∧
  a.visibility = b.visibility ∧ a.docs = b.docs ∧ a.links = b.links ∧
  a.deprecation = b.deprecation ∧ a.inner = b.inner

/-! ### Concrete inputs used by counterexamples and witnesses -/

/-- A build-target value for the concrete crates below. -/
def demoTarget : Target :=
  { triple := "x86_64-unknown-linux-gnu", target_features := [] }

/-- A crate whose index is empty. -/
def emptyCrate : Crate :=
  { root := 0
    crate_version := some "1.0.0"
    includes_private := false
    index := []
    paths := []
    external_crates := []
    target := demoTarget
    format_version := 54 }

/-- A public documented item with full span information. -/
def demoItem : Item :=
  { id := 1
    crate_id := 0
    name := some "foo"
    span := some { filename := { toStr := some "src/lib.rs" }
                   beginPos := (1, 0)
                   endPos := (2, 0) }
    visibility := Visibility.Public
    docs := some "Doc of foo."
    links := []
    attrs := []
    deprecation := none
    inner := ItemEnum.other 1 }

/-- A private documented item, skipped by the loop. -/
def demoPrivateItem : Item :=
  { id := 2
    crate_id := 0
    name := some "hidden"
    span := none
    visibility := Visibility.Crate
    docs := some "Private doc."
    links := []
    attrs := []
    deprecation := none
    inner := ItemEnum.other 2 }

/-- A crate with one public documented item, one private documented item
and one undocumented item (the root module). -/
def demoCrate : Crate :=
  { root := 0
    crate_version := some "0.2.0"
    includes_private := false
    index :=
      [(0, { id := 0, crate_id := 0, name := some "demo", span := none
             visibility := Visibility.Public, docs := none, links := []
             attrs := [], deprecation := none
             inner := ItemEnum.moduleItem true }),
       (1, demoItem),
       (2, demoPrivateItem)]
    paths := []
    external_crates := []
    target := demoTarget
    format_version := 54 }

/-- The `CrateDocs` value `process_docs "demo" demoCrate none` returns. -/
def demoDocsOut : CrateDocs :=
  { lib_name := "demo"
    version := "0.2.0"
    sessions :=
      [{ title := "demo", description := ""
         link := "https://docs.rs/demo/0.2.0" },
       { title := "foo", description := ""
         link := "https://docs.rs/crate/demo/0.2.0/source/src/lib.rs" }]
    full_sessions :=
      [{ content := "Doc of foo."
         link := "https://docs.rs/crate/demo/0.2.0/source/src/lib.rs" }] }

/-- The standard-schema twin of `demoCrate`, agreeing with it on every
field the refinement claim names. -/
def demoRustCrate : RustCrate :=
  { root := 0
    crate_version := some "0.2.0"
    includes_private := false
    index :=
      [(0, { id := 0, crate_id := 0, name := some "demo", span := none
             visibility := Visibility.Public, docs := none, links := []
             attrs := [], deprecation := none
             inner := ItemEnum.moduleItem true }),
       (1, { id := 1, crate_id := 0, name := some "foo"
             span := some { filename := { toStr := some "src/lib.rs" }
                            beginPos := (1, 0)
                            endPos := (2, 0) }
             visibility := Visibility.Public, docs := some "Doc of foo."
             links := [], attrs := [], deprecation := none
             inner := ItemEnum.other 1 }),
       (2, { id := 2, crate_id := 0, name := some "hidden", span := none
             visibility := Visibility.Crate, docs := some "Private doc."
             links := [], attrs := [], deprecation := none
             inner := ItemEnum.other 2 })]
    paths := []
    external_crates := []
    target := demoTarget
    format_version := 54 }

/-- A crate with a public documented item whose span is `None`: on it
the `span.unwrap()` in `process_docs` panics. -/
def badSpanCrate : Crate :=
  { root := 0
    crate_version := some "0.1.0"
    includes_private := false
    index :=
      [(1, { id := 1, crate_id := 0, name := some "foo", span := none
             visibility := Visibility.Public, docs := some "Doc of foo."
             links := [], attrs := [], deprecation := none
             inner := ItemEnum.other 1 })]
    paths := []
    external_crates := []
    target := demoTarget
    format_version := 54 }

/-! ### Claim theorems -/

/-- Claim C1: every session item other than the leading crate entry, and
every full session item, produced by `process_docs` originates from an
index item that is documented (`docs` is `Some`) and `Public`; an
undocumented or non-public index item contributes nothing to either
output list (witnessed by the output lengths, which count exactly the
public documented entries). -/
theorem C1_outputs_from_public_documented_items (lib_name : String)
    (c : Crate) (version : Option String) (cd : CrateDocs)
    (h : process_docs lib_name c version = some cd) :
    (∀ s ∈ cd.sessions.tail, ∃ p ∈ c.index,
        p.2.docs.isSome = true ∧ p.2.visibility = Visibility.Public) ∧
    (∀ f ∈ cd.full_sessions, ∃ p ∈ c.index,
        p.2.docs = some f.content ∧
        p.2.visibility = Visibility.Public) ∧
    cd.sessions.length = 1 + (c.index.filter isPublicDocumented).length ∧
    cd.full_sessions.length = (c.index.filter isPublicDocumented).length := by
  have hok : spansOk c.index := by
    have := (process_docs_isSome_iff lib_name c version).mp (by rw [h]; rfl)
    rwa [crate_index] at this
  have hshape := process_docs_some_shape lib_name c version cd h
  subst hshape
  rw [crate_index, crate_crate_version]
  set base : String := DOCS_BASE_URL ++ "/" ++ lib_name ++ "/"
    ++ version.getD (c.crate_version.getD "latest") ++ "/source" with hbase
  refine ⟨?_, ?_, ?_, ?_⟩
  · intro s hs
    simp only [List.tail_cons, List.mem_map] at hs
    obtain ⟨q, hq, hqs⟩ := hs
    obtain ⟨p, hp, hpq⟩ := List.mem_filterMap.mp hq
    obtain ⟨d, sp, fname, hd, hv, _⟩ := entryView_some_inversion _ _ _ hpq
    exact ⟨p, hp, by simp [hd], hv⟩
  · intro f hf
    simp only [List.mem_map] at hf
    obtain ⟨q, hq, hqf⟩ := hf
    obtain ⟨p, hp, hpq⟩ := List.mem_filterMap.mp hq
    obtain ⟨d, sp, fname, hd, hv, _, _, _, hq2⟩ :=
      entryView_some_inversion _ _ _ hpq
    refine ⟨p, hp, ?_, hv⟩
    rw [← hqf, hq2, hd]
  · simp only [List.length_cons, List.length_map,
      processItems_filterMap_length base c.index hok]
    omega
  · simp only [List.length_map,
      processItems_filterMap_length base c.index hok]

/-- The value returned by `process_docs` on a crate with an empty index:
one session (the crate summary entry) and no full sessions. -/
def emptyIndexDocsOut : CrateDocs :=
  { lib_name := "serde"
    version := "1.0.0"
    sessions :=
      [{ title := "serde", description := ""
         link := "https://docs.rs/serde/1.0.0" }]
    full_sessions := [] }

/-- Claim C2 counterexample: `sessions` and `full_sessions` do NOT have
equal length. On a crate with an empty index, `process_docs` returns one
session (the leading crate entry) and zero full sessions. -/
theorem C2_counterexample :
    process_docs "serde" emptyCrate (some "1.0.0") =
      some emptyIndexDocsOut ∧
    emptyIndexDocsOut.sessions.length ≠
      emptyIndexDocsOut.full_sessions.length :=
  ⟨rfl, by decide⟩

/-- Claim C2 (amended): the two lists are parallel after dropping the
leading crate entry: `sessions` is exactly one longer than
`full_sessions`, and for every index `i` the `(i+1)`-th session's link
equals the `i`-th full session's link. -/
theorem C2_amended_parallel_lists (lib_name : String) (c : Crate)
    (version : Option String) (cd : CrateDocs)
    (h : process_docs lib_name c version = some cd) :
    cd.sessions.length = cd.full_sessions.length + 1 ∧
    ∀ i : Nat, (cd.sessions.tail[i]?).map SessionItem.link =
      (cd.full_sessions[i]?).map FullSessionItem.link := by
  have hshape := process_docs_some_shape lib_name c version cd h
  subst hshape
  rw [crate_index, crate_crate_version]
  set base : String := DOCS_BASE_URL ++ "/" ++ lib_name ++ "/"
    ++ version.getD (c.crate_version.getD "latest") ++ "/source" with hbase
  set l : List (SessionItem × FullSessionItem) :=
    c.index.filterMap (entryView base) with hl
  constructor
  · simp
  · intro i
    simp only [List.tail_cons, List.getElem?_map]
    cases hli : l[i]? with
    | none => simp
    | some q =>
      have hq : q ∈ l := by
        have : i < l.length := by
          by_contra hge
          rw [List.getElem?_eq_none (Nat.le_of_not_lt hge)] at hli
          exact Option.noConfusion hli
        rw [List.getElem?_eq_getElem this] at hli
        simp only [Option.some.injEq] at hli
        rw [← hli]
        exact l.getElem_mem this
      obtain ⟨p, hp, hpq⟩ := List.mem_filterMap.mp hq
      simp [entryView_links_eq base p q hpq]

/-- Claim C3: for each public documented index item, exactly one session
and one full session are appended; the session's title is the item's
name (or the span filename when the name is `None`), its description is
empty, the shared link is
`https://docs.rs/crate/LIB/VERSION/source/FILENAME` built from the
item's span filename, and the full session's content is the item's docs
string unchanged. (All of this is the content of `entryView`; the
theorem says the outputs are exactly the `entryView` images of the
index, with matching links.) -/
theorem C3_session_and_full_session_per_item (lib_name : String)
    (c : Crate) (version : Option String) (cd : CrateDocs)
    (h : process_docs lib_name c version = some cd) :
    cd.sessions.tail =
      (c.index.filterMap (entryView ("https://docs.rs/crate" ++ "/"
        ++ lib_name ++ "/" ++ version.getD (c.crate_version.getD "latest")
        ++ "/source"))).map Prod.fst ∧
    cd.full_sessions =
      (c.index.filterMap (entryView ("https://docs.rs/crate" ++ "/"
        ++ lib_name ++ "/" ++ version.getD (c.crate_version.getD "latest")
        ++ "/source"))).map Prod.snd ∧
    List.Forall₂ (fun s f => s.link = f.link)
      cd.sessions.tail cd.full_sessions := by
  have hshape := process_docs_some_shape lib_name c version cd h
  subst hshape
  rw [crate_index, crate_crate_version]
  refine ⟨by simp [DOCS_BASE_URL], by simp [DOCS_BASE_URL], ?_⟩
  simp only [List.tail_cons]
  refine links_forall₂ _ ?_
  intro q hq
  obtain ⟨p, hp, hpq⟩ := List.mem_filterMap.mp hq
  exact entryView_links_eq _ p q hpq

lemma convert_forall₂ (xs : List (Id × RustItem)) (ys : List (Id × Item))
    (hxy : List.Forall₂ (fun a b => a.1 = b.1 ∧ itemAgrees a.2 b.2) xs ys) :
    List.Forall₂ (fun a b =>
      a.2.docs = b.2.docs ∧ a.2.visibility = b.2.visibility ∧
      a.2.span = b.2.span ∧ a.2.name = b.2.name)
      (xs.map (fun p => (p.1, convertItem p.2))) ys := by
  induction hxy with
  | nil => exact List.Forall₂.nil
  | cons hab htail ih =>
    obtain ⟨hkey, hid, hname, hspan, hvis, hdocs, hlinks, hdep, hinner⟩ := hab
    exact List.Forall₂.cons
      ⟨by simp [convertItem, hdocs], by simp [convertItem, hvis],
       by simp [convertItem, hspan], by simp [convertItem, hname]⟩ ih

/-- Claim C7: for crate documentation representable in both schemas
(equal root id, equal `crate_version`, and indexes whose entries agree
pairwise on id, name, span, visibility, docs, links, deprecation and
inner), `process_docs` produces the same `CrateDocs` through the
`CommonCrates` impl for `rustdoc_types::Crate` as through the impl for
the internal `temp_trait::Crate`. -/
theorem C7_dual_schema_equivalence (lib_name : String)
    (version : Option String) (rc : RustCrate) (tc : Crate)
    (hroot : rc.root = tc.root)
    (hver : rc.crate_version = tc.crate_version)
    (hidx : List.Forall₂ (fun a b => a.1 = b.1 ∧ itemAgrees a.2 b.2)
      rc.index tc.index) :
    process_docs lib_name rc version = process_docs lib_name tc version := by
  have hcv : CommonCrates.crate_version rc = CommonCrates.crate_version tc := by
    rw [rustCrate_crate_version, crate_crate_version, hver]
  have hitems : ∀ base_url : String,
      processItems base_url (CommonCrates.index rc) =
        processItems base_url (CommonCrates.index tc) := by
    intro base_url
    rw [rustCrate_index, crate_index]
    exact processItems_congr base_url _ _ (convert_forall₂ rc.index tc.index hidx)
  simp only [process_docs, hcv, hitems]

/-- Claim C8: `process_docs` is total exactly under the precondition
that every public documented index item has span information with a
UTF-8-representable filename; under it the `span.unwrap()` and
`filename.to_str().unwrap()` branches cannot fail, while on a concrete
input with a public documented item whose span is `None` the call
panics (embedded as `none`) rather than returning an `Err`. -/
theorem C8_totality_under_span_precondition :
    (∀ (lib_name : String) (c : Crate) (version : Option String),
        spansOk c.index →
        (process_docs lib_name c version).isSome = true) ∧
    badSpanCrate.index.any (fun p => p.2.docs.isSome
      && decide (p.2.visibility = Visibility.Public)
      && decide (p.2.span = none)) = true ∧
    process_docs "demo" badSpanCrate none = none := by
  refine ⟨?_, by decide, rfl⟩
  intro lib_name c version hok
  rw [process_docs_isSome_iff, crate_index]
  exact hok

/-- Claim C9 counterexample: `process_docs` does not return `Ok` for
every input; on a crate containing a public documented item with
`span = None` the call never returns (the embedded panic `none`),
refuting the universally quantified claim. -/
theorem C9_counterexample :
    process_docs "demo" badSpanCrate none = none := rfl

/-- Claim C9 (amended): under the precondition that every public
documented index item has a span with a UTF-8 filename, `process_docs`
returns `Ok`; the sessions list is then non-empty even for an empty
index, its first element is the crate summary entry with title
`lib_name`, empty description and link `https://docs.rs/LIB/VERSION`,
where the version is the supplied argument or, when `None`, the value
of `docs.crate_version()`, which is "latest" when the `crate_version`
field is `None`. -/
theorem C9_amended_head_session (lib_name : String) (c : Crate)
    (version : Option String) (hok : spansOk c.index) :
    (process_docs lib_name c version).isSome = true ∧
    (∀ cd, process_docs lib_name c version = some cd →
      cd.sessions ≠ [] ∧
      cd.sessions.head? = some
        { title := lib_name
          description := ""
          link := "https://docs.rs/" ++ lib_name ++ "/"
            ++ version.getD (c.crate_version.getD "latest") } ∧
      cd.version = version.getD (c.crate_version.getD "latest")) ∧
    (c.crate_version = none → CommonCrates.crate_version c = "latest") := by
  refine ⟨?_, ?_, ?_⟩
  · rw [process_docs_isSome_iff, crate_index]; exact hok
  · intro cd hcd
    have hshape := process_docs_some_shape lib_name c version cd hcd
    subst hshape
    rw [crate_crate_version]
    exact ⟨by simp, rfl, rfl⟩
  · intro hnone
    rw [crate_crate_version, hnone]
    rfl

/-- Claim C10: `process_docs` is a self-contained transformation with no
persistent state: it is a pure function of its three arguments, so two
calls with equal `lib_name`, `docs` and `version` return equal
`CrateDocs` values, and in particular equal sessions and full-sessions
lists (same elements in the same order); no call mutates state
observable by a later call (in this embedding there is no state at
all). -/
theorem C10_stateless_idempotent (lib_name₁ lib_name₂ : String)
    (c₁ c₂ : Crate) (version₁ version₂ : Option String)
    (hl : lib_name₁ = lib_name₂) (hc : c₁ = c₂)
    (hv : version₁ = version₂) :
    process_docs lib_name₁ c₁ version₁ =
      process_docs lib_name₂ c₂ version₂ ∧
    (∀ cd₁ cd₂, process_docs lib_name₁ c₁ version₁ = some cd₁ →
      process_docs lib_name₂ c₂ version₂ = some cd₂ →
      cd₁.sessions = cd₂.sessions ∧
      cd₁.full_sessions = cd₂.full_sessions) := by
  subst hl hc hv
  refine ⟨rfl, ?_⟩
  intro cd₁ cd₂ h₁ h₂
  rw [h₁] at h₂
  simp only [Option.some.injEq] at h₂
  rw [h₂]
  exact ⟨rfl, rfl⟩

/-- Claim C4: `from_online` and `from_url` first attempt to parse via
the standard `rustdoc_types::Crate` schema; only when that attempt
errors do they retry the same fetched data under the internal
`temp_trait::Crate` schema (first conjunct of the success case: on a
successful first attempt the internal decoder is never consulted and
the result comes from `process_docs` on the standard-schema value); and
when both attempts fail, the error returned is exactly that of the
second (internal-schema) attempt, the first error being discarded. -/
theorem C4_fallback_returns_second_error {J : Type}
    (decRust : Bytes → Except String RustCrate)
    (decTemp : Bytes → Except String Crate)
    (fromSliceValue : Bytes → Except String J)
    (zdec : Bytes → Except String Bytes)
    (net : String → Except Error HttpResponse)
    (lib_name : String) (version : Option String) (url : String)
    (hurl : url = DOCS_BASE_URL ++ "/" ++ lib_name ++ "/"
      ++ version.getD "latest" ++ "/json") :
    (∀ e₁ e₂,
      fetch_json decRust fromSliceValue zdec net url = Except.error e₁ →
      fetch_json decTemp fromSliceValue zdec net url = Except.error e₂ →
      from_online decRust decTemp fromSliceValue zdec net lib_name version =
        some (Except.error e₂) ∧
      from_url decRust decTemp fromSliceValue zdec net url =
        some (Except.error e₂)) ∧
    (∀ result,
      fetch_json decRust fromSliceValue zdec net url = Except.ok result →
      from_online decRust decTemp fromSliceValue zdec net lib_name version =
        (process_docs lib_name result
          (some (CommonCrates.crate_version result))).map Except.ok) := by
  subst hurl
  constructor
  · intro e₁ e₂ h₁ h₂
    constructor
    · simp only [from_online, h₁, h₂]
    · simp only [from_url, h₁, h₂]
  · intro result hok
    simp only [from_online, hok]

/-- Claim C5: `parse_json_with_fallback` returns `Ok` exactly when the
bytes deserialize into the target crate type; otherwise it returns a
`Config` error exactly when the bytes are nevertheless valid JSON (a
version-compatibility mismatch), and a `Json` error exactly when the
bytes are not valid JSON at all. The hypothesis records the serde fact
that bytes deserializing into `T` are in particular valid JSON. -/
theorem C5_parse_fallback_trichotomy {T J : Type}
    (fromSliceT : Bytes → Except String T)
    (fromSliceValue : Bytes → Except String J)
    (data : Bytes)
    (hserde : ∀ t, fromSliceT data = Except.ok t →
      ∃ j, fromSliceValue data = Except.ok j) :
    (∀ t, parse_json_with_fallback fromSliceT fromSliceValue data =
        Except.ok t ↔ fromSliceT data = Except.ok t) ∧
    ((∃ msg, parse_json_with_fallback fromSliceT fromSliceValue data =
        Except.error (Error.Config msg)) ↔
      ((∀ t, fromSliceT data ≠ Except.ok t) ∧
        ∃ j, fromSliceValue data = Except.ok j)) ∧
    ((∃ msg, parse_json_with_fallback fromSliceT fromSliceValue data =
        Except.error (Error.Json msg)) ↔
      ∀ j, fromSliceValue data ≠ Except.ok j) := by
  cases hT : fromSliceT data with
  | ok t =>
    obtain ⟨j, hj⟩ := hserde t hT
    refine ⟨?_, ?_, ?_⟩
    · intro t'
      simp [parse_json_with_fallback, hT]
    · simp [parse_json_with_fallback, hT]
    · simp [parse_json_with_fallback, hT]
      exact ⟨j, hj⟩
  | error e =>
    cases hV : fromSliceValue data with
    | ok j =>
      refine ⟨?_, ?_, ?_⟩
      · intro t'
        simp [parse_json_with_fallback, hT, hV]
      · simp only [parse_json_with_fallback, hT, hV]
        constructor
        · intro _
          exact ⟨fun t' h => Except.noConfusion h, j, rfl⟩
        · intro _
          exact ⟨_, rfl⟩
      · simp only [parse_json_with_fallback, hT, hV]
        constructor
        · rintro ⟨msg, hmsg⟩
          simp at hmsg
        · intro habs
          exact absurd rfl (habs j)
    | error eV =>
      refine ⟨?_, ?_, ?_⟩
      · intro t'
        simp [parse_json_with_fallback, hT, hV]
      · simp only [parse_json_with_fallback, hT, hV]
        constructor
        · rintro ⟨msg, hmsg⟩
          simp at hmsg
        · rintro ⟨-, j', hj'⟩
          exact Except.noConfusion hj'
      · simp only [parse_json_with_fallback, hT, hV]
        exact iff_of_true ⟨e, rfl⟩ (fun j' h => Except.noConfusion h)

/-- Claim C6: `decompress_if_needed` errors only when the
`Content-Encoding` header equals "zstd" case-insensitively and zstd
decoding fails (the error being the wrapped decoder error); under any
other declared encoding the body is returned unchanged; and with no
`Content-Encoding` header it never errors, returning the decoded bytes
on success and falling back to the original bytes on failure. -/
theorem C6_decompress_error_conditions
    (zdec : Bytes → Except String Bytes) (body_bytes : Bytes)
    (content_encoding content_type : Option String) (url : String) :
    (∀ e, decompress_if_needed zdec body_bytes content_encoding
        content_type url = Except.error e →
      ∃ enc, content_encoding = some enc ∧
        eqIgnoreAsciiCase enc "zstd" = true ∧
        ∃ ioe, zdec body_bytes = Except.error ioe ∧ e = Error.IoErr ioe) ∧
    (∀ enc, content_encoding = some enc →
      eqIgnoreAsciiCase enc "zstd" = false →
      decompress_if_needed zdec body_bytes content_encoding
        content_type url = Except.ok body_bytes) ∧
    (content_encoding = none →
      (∀ decompressed, zdec body_bytes = Except.ok decompressed →
        decompress_if_needed zdec body_bytes content_encoding
          content_type url = Except.ok decompressed) ∧
      (∀ ioe, zdec body_bytes = Except.error ioe →
        decompress_if_needed zdec body_bytes content_encoding
          content_type url = Except.ok body_bytes)) := by
  refine ⟨?_, ?_, ?_⟩
  · intro e he
    cases hce : content_encoding with
    | none =>
      rw [hce] at he
      cases hz : zdec body_bytes with
      | ok d => simp [decompress_if_needed, hz] at he
      | error ioe => simp [decompress_if_needed, hz] at he
    | some enc =>
      rw [hce] at he
      by_cases hzstd : eqIgnoreAsciiCase enc "zstd" = true
      · refine ⟨enc, rfl, hzstd, ?_⟩
        rw [decompress_if_needed, if_pos hzstd] at he
        cases hz : zdec body_bytes with
        | ok d => rw [hz] at he; exact Except.noConfusion he
        | error ioe =>
          rw [hz] at he
          simp only [Except.mapError, Except.error.injEq] at he
          exact ⟨ioe, rfl, he.symm⟩
      · rw [decompress_if_needed, if_neg hzstd] at he
        exact Except.noConfusion he
  · intro enc hce hne
    rw [hce, decompress_if_needed, if_neg (by rw [hne]; simp)]
  · intro hce
    rw [hce]
    constructor
    · intro decompressed hz
      rw [decompress_if_needed, hz]
    · intro ioe hz
      rw [decompress_if_needed, hz]

/-! ### Concrete pipeline functions for witnesses -/

/-- A zstd decoder standing in for `zstd::decode_all` that succeeds and
returns its input. -/
def zdecId : Bytes → Except String Bytes := fun b => Except.ok b

/-- A network that fails every request. -/
def netDown : String → Except Error HttpResponse :=
  fun _ => Except.error (Error.Network "connection refused")

/-- A standard-schema decoder that always fails. -/
def decRustFail : Bytes → Except String RustCrate :=
  fun _ => Except.error "missing field root"

/-- An internal-schema decoder that always fails. -/
def decTempFail : Bytes → Except String Crate :=
  fun _ => Except.error "missing field root"

/-- A JSON-value decoder that always fails. -/
def decValueFail : Bytes → Except String Nat :=
  fun _ => Except.error "invalid json"

/-- A target-type decoder accepting exactly the byte string `[49]`. -/
def decNatOk : Bytes → Except String Nat :=
  fun b => if b = [49] then Except.ok 1 else Except.error "expected number"

/-- A JSON-value decoder that accepts everything. -/
def decValueOk : Bytes → Except String Nat := fun _ => Except.ok 0

/-! ### Witnesses -/

/-- Witness for C1 at `demoCrate`: of its three index items exactly one
is public and documented, and the output lengths count it. -/
theorem C1_witness :
    demoDocsOut.sessions.length =
      1 + (demoCrate.index.filter isPublicDocumented).length :=
  (C1_outputs_from_public_documented_items "demo" demoCrate none
    demoDocsOut rfl).2.2.1

/-- Witness for the amended C2 at `demoCrate`. -/
theorem C2_amended_witness :
    demoDocsOut.sessions.length = demoDocsOut.full_sessions.length + 1 :=
  (C2_amended_parallel_lists "demo" demoCrate none demoDocsOut rfl).1

/-- Witness for C3 at `demoCrate`. -/
theorem C3_witness :
    demoDocsOut.full_sessions =
      (demoCrate.index.filterMap (entryView ("https://docs.rs/crate" ++ "/"
        ++ "demo" ++ "/" ++ (none : Option String).getD
          (demoCrate.crate_version.getD "latest")
        ++ "/source"))).map Prod.snd :=
  (C3_session_and_full_session_per_item "demo" demoCrate none
    demoDocsOut rfl).2.1

/-- Witness for C4: with a failing network both attempts fail with the
same network error, and `from_online` returns the second attempt's
error. -/
theorem C4_witness :
    from_online decRustFail decTempFail decValueFail zdecId netDown
      "serde" none = some (Except.error (Error.Network "connection refused")) :=
  ((C4_fallback_returns_second_error decRustFail decTempFail decValueFail
      zdecId netDown "serde" none
      (DOCS_BASE_URL ++ "/" ++ "serde" ++ "/"
        ++ (none : Option String).getD "latest" ++ "/json") rfl).1
    (Error.Network "connection refused")
    (Error.Network "connection refused") rfl rfl).1

/-- Witness for C5: bytes accepted by the target decoder parse to `Ok`. -/
theorem C5_witness :
    parse_json_with_fallback decNatOk decValueOk [49] = Except.ok 1 :=
  ((C5_parse_fallback_trichotomy decNatOk decValueOk [49]
      (fun _ _ => ⟨0, rfl⟩)).1 1).mpr rfl

/-- Witness for C6: a declared non-zstd encoding returns the body
unchanged. -/
theorem C6_witness :
    decompress_if_needed zdecId [7, 7] (some "gzip") none "url" =
      Except.ok [7, 7] :=
  (C6_decompress_error_conditions zdecId [7, 7] (some "gzip")
    none "url").2.1 "gzip" rfl rfl

/-- Witness for C7: `demoRustCrate` and `demoCrate` agree on all named
fields and `process_docs` gives the same result on both. -/
theorem C7_witness :
    process_docs "demo" demoRustCrate none =
      process_docs "demo" demoCrate none :=
  C7_dual_schema_equivalence "demo" none demoRustCrate demoCrate rfl rfl
    (List.Forall₂.cons ⟨rfl, rfl, rfl, rfl, rfl, rfl, rfl, rfl, rfl⟩
      (List.Forall₂.cons ⟨rfl, rfl, rfl, rfl, rfl, rfl, rfl, rfl, rfl⟩
        (List.Forall₂.cons ⟨rfl, rfl, rfl, rfl, rfl, rfl, rfl, rfl, rfl⟩
          List.Forall₂.nil)))

/-- Witness for C8: `demoCrate` satisfies the span precondition and
`process_docs` returns on it. -/
theorem C8_witness :
    (process_docs "demo" demoCrate none).isSome = true :=
  C8_totality_under_span_precondition.1 "demo" demoCrate none (by decide)

/-- Witness for the amended C9 at a crate with an empty index. -/
theorem C9_amended_witness :
    (process_docs "serde" emptyCrate none).isSome = true :=
  (C9_amended_head_session "serde" emptyCrate none (by decide)).1

/-- Witness for C10 at `demoCrate`. -/
theorem C10_witness :
    process_docs "demo" demoCrate none = process_docs "demo" demoCrate none :=
  (C10_stateless_idempotent "demo" "demo" demoCrate demoCrate none none
    rfl rfl rfl).1

end CratesLlmsTxt
